import Mathlib

/-!
Shallow embedding of the selection and view-transition logic of
static/js/app.js (kiosk voting frontend: pick three items, launch, watch a
word-cloud, auto-return).

Pure selection-list operations are embedded as functions on
List SelectionEntry.  The async launch flow is embedded as a function from
an environment of request outcomes to the final state together with the
ordered list of observable events, linearized in the order the source code
awaits them.  The auto-return timer is modelled by a Boolean flag
(timerSet) plus an explicit timer-fire command that runs the callback only
while the flag is still set (clearTimeout semantics: a cancelled timeout
never runs).
-/

/-- One element of the selectedItems array: the source stores
objects of shape (gridButton, rocketIndex, key); the DOM reference
gridButton is dropped, it is determined by key. -/
structure SelectionEntry where
  key : String
  rocketIndex : Nat
deriving DecidableEq

/-- The keys of the current selection, as in
selectedItems.map(item => item.key). -/
def selectionKeys (s : List SelectionEntry) : List String :=
  s.map SelectionEntry.key

/-- usedIndices = selectedItems.map(item => item.rocketIndex) in
handleGridItemClick. -/
def usedIndices (s : List SelectionEntry) : List Nat :=
  s.map SelectionEntry.rocketIndex

/-- The slot-search loop of handleGridItemClick: rocketIndex starts at 0
and is incremented while usedIndices.includes(rocketIndex) and
rocketIndex is below 3; the loop body runs at most three times, so it is
unrolled here. -/
def nextRocketIndex (used : List Nat) : Nat :=
  if used.contains 0 then
    if used.contains 1 then
      if used.contains 2 then 3 else 2
    else 1
  else 0

/-- handleGridItemClick restricted to its effect on selectedItems.
The source looks up findIndex on key equality and splices that index out
when found (here: eraseP of the first matching entry, guarded by any);
otherwise, when fewer than 3 items are selected, it pushes the key with
the first free rocket index, provided that index is below 3. -/
def handleGridItemClick (s : List SelectionEntry) (k : String) :
    List SelectionEntry :=
  if s.any (fun e => e.key == k) then
    s.eraseP (fun e => e.key == k)
  else
    if s.length < 3 then
      let rocketIndex := nextRocketIndex (usedIndices s)
      if rocketIndex < 3 then s ++ [⟨k, rocketIndex⟩] else s
    else s

/-- handleRocketBlockClick restricted to its effect on selectedItems:
findIndex on rocketIndex equality, splice when found, otherwise nothing. -/
def handleRocketBlockClick (s : List SelectionEntry) (i : Nat) :
    List SelectionEntry :=
  if s.any (fun e => e.rocketIndex == i) then
    s.eraseP (fun e => e.rocketIndex == i)
  else s

/-- AUTO_RETURN_ENABLED constant of the source. -/
def AUTO_RETURN_ENABLED : Bool := true

/-- Observable events of the embedded flows: outgoing requests, the
animation-complete signal, resolutions or rejections of the awaited
promises, and user-visible effects. -/
inductive Event where
  | firePrecompute (keys : List String) (lang : String)
  | animationComplete
  | fireVote (keys : List String)
  | voteResolved
  | voteRejected
  | precomputeResolved
  | precomputeRejected
  | commitFired
  | loadImage (lang : String)
  | imageLoadFailed
  | errorAlert
  | fetchTranslations (lang : String)
  | showResult
deriving DecidableEq

/-- The page-local mutable state of app.js that the embedded flows touch:
selectedItems, currentLanguage, the disabled state of the launch button,
the disabled state set by setLaunchInteractionDisabled, the
isWordcloudVisible flag, the pending auto-return timer, the language of
the asset the wordcloud img element currently points at, and whether the
page is the standalone /wordcloud route. -/
structure AppState where
  selectedItems : List SelectionEntry
  currentLanguage : String
  launchDisabled : Bool
  interactionDisabled : Bool
  isWordcloudVisible : Bool
  timerSet : Bool
  displayedImageLang : Option String
  onWordcloudPage : Bool
deriving DecidableEq

/-- Outcomes of the awaited asynchronous operations during a launch. -/
structure LaunchEnv where
  submitOk : Bool
  precomputeOk : Bool
  imageLoadOk : Bool
deriving DecidableEq

/-- updateLaunchButtonState: the launch button is enabled exactly when
selectedItems.length === 3. -/
def updateLaunchButtonState (st : AppState) : AppState :=
  { st with launchDisabled := !(st.selectedItems.length == 3) }

/-- The synchronous entry prefix of handleLaunchButtonClick: the launch
button is disabled and setLaunchInteractionDisabled(true) disables every
selection button, all before the first await. -/
def transitioningState (st : AppState) : AppState :=
  { st with launchDisabled := true, interactionDisabled := true }

/-- The catch branch of handleLaunchButtonClick: the launch button is
re-enabled and setLaunchInteractionDisabled(false) re-enables all
interaction; selectedItems is untouched. -/
def errorRecoveryState (st : AppState) : AppState :=
  { st with launchDisabled := false, interactionDisabled := false }

/-- showWordcloudView: loadWordcloudImage assigns the img src for the
current language and is awaited; on success the containers are swapped,
isWordcloudVisible is set, any pending return timer is cleared and the
auto-return timer armed.  A load rejection propagates to the caller
(flag false). -/
def showWordcloudView (st : AppState) (loadOk : Bool) :
    AppState × Bool × List Event :=
  let stSrc := { st with displayedImageLang := some st.currentLanguage }
  if loadOk then
    ({ stSrc with isWordcloudVisible := true, timerSet := AUTO_RETURN_ENABLED },
     true, [Event.loadImage st.currentLanguage, Event.showResult])
  else
    (stSrc, false, [Event.loadImage st.currentLanguage, Event.imageLoadFailed])

/-- handleLaunchButtonClick.  Control flow of the source: early return
unless exactly 3 items are selected; disable the launch button and all
interaction; fire the precompute request (carrying the selected keys and
the current language) before awaiting the animation; after the animation
completes, fire the vote request; a rejection of the vote request, of the
awaited precompute promise, or of the image load inside showWordcloudView
falls into the catch branch (alert plus re-enable).  commitWordcloud
swallows its own failures and never rejects. -/
def handleLaunchButtonClick (st : AppState) (env : LaunchEnv) :
    AppState × List Event :=
  if st.selectedItems.length ≠ 3 then (st, [])
  else
    let st1 := transitioningState st
    let keys := selectionKeys st.selectedItems
    let launchEvents :=
      [Event.firePrecompute keys st.currentLanguage, Event.animationComplete,
       Event.fireVote keys]
    if env.submitOk then
      if env.precomputeOk then
        let committed := launchEvents ++
          [Event.voteResolved, Event.precomputeResolved, Event.commitFired]
        match showWordcloudView st1 env.imageLoadOk with
        | (st2, true, ev) => (st2, committed ++ ev)
        | (st2, false, ev) =>
            (errorRecoveryState st2, committed ++ ev ++ [Event.errorAlert])
      else
        (errorRecoveryState st1,
         launchEvents ++
           [Event.voteResolved, Event.precomputeRejected, Event.errorAlert])
    else
      (errorRecoveryState st1,
       launchEvents ++ [Event.voteRejected, Event.errorAlert])

/-- The launch-button click listener registered on DOMContentLoaded: it
invokes handleLaunchButtonClick only when the button is not disabled. -/
def launchClickListener (st : AppState) (env : LaunchEnv) :
    AppState × List Event :=
  if st.launchDisabled then (st, []) else handleLaunchButtonClick st env

/-- The states at which the event loop could process another click while
handleLaunchButtonClick is suspended: one entry per await the executed
path reaches (animation, vote fetch, precompute promise, commit, image
load).  No state field changes between the synchronous entry prefix and
the end of the flow, so each suspension state is transitioningState. -/
def launchSuspensionStates (st : AppState) (env : LaunchEnv) :
    List AppState :=
  if st.selectedItems.length ≠ 3 then []
  else if !env.submitOk then List.replicate 2 (transitioningState st)
  else if !env.precomputeOk then List.replicate 3 (transitioningState st)
  else List.replicate 5 (transitioningState st)

/-- returnToSelection: early return unless the wordcloud is visible;
otherwise clear the pending auto-return timer, drop the visible flag and,
after the fade timeout, reset selectedItems, run the render updates
(updateLaunchButtonState would disable the launch button for the empty
selection) and finally setLaunchInteractionDisabled(false), which
re-enables every button, the launch button included. -/
def returnToSelection (st : AppState) : AppState :=
  if st.isWordcloudVisible then
    { st with
        timerSet := false
        isWordcloudVisible := false
        selectedItems := []
        launchDisabled := false
        interactionDisabled := false }
  else st

/-- setLanguage(lang): currentLanguage is assigned before the translations
are awaited, so it changes even when loading them fails (the catch only
logs).  Only on the standalone /wordcloud page does it re-point the
wordcloud image to the asset for lang (updateWordcloudImage); no vote,
precompute or regenerate request is issued. -/
def setLanguage (st : AppState) (lang : String) (translationsOk : Bool) :
    AppState × List Event :=
  let st1 := { st with currentLanguage := lang }
  if translationsOk then
    if st1.onWordcloudPage then
      ({ st1 with displayedImageLang := some lang },
       [Event.fetchTranslations lang, Event.loadImage lang])
    else (st1, [Event.fetchTranslations lang])
  else (st1, [Event.fetchTranslations lang])

/-- The discrete inputs the page reacts to. -/
inductive Cmd where
  | gridClick (k : String)
  | rocketClick (i : Nat)
  | launchClick (env : LaunchEnv)
  | backClick
  | timerFire
  | langClick (lang : String) (translationsOk : Bool)
deriving DecidableEq

/-- One input processed to completion.  Grid and rocket buttons have their
disabled property set by setLaunchInteractionDisabled, so they deliver no
click while interaction is disabled; both handlers end in updateGridStates
and hence updateLaunchButtonState (the rocket handler only when an entry
occupied the slot).  The back button on the main page calls
returnToSelection; the auto-return timeout runs returnToSelection only
while the timer has not been cleared. -/
def step (st : AppState) (c : Cmd) : AppState :=
  match c with
  | .gridClick k =>
      if st.interactionDisabled then st
      else updateLaunchButtonState
        { st with selectedItems := handleGridItemClick st.selectedItems k }
  | .rocketClick i =>
      if st.interactionDisabled then st
      else if st.selectedItems.any (fun e => e.rocketIndex == i) then
        updateLaunchButtonState
          { st with selectedItems := handleRocketBlockClick st.selectedItems i }
      else st
  | .launchClick env => (launchClickListener st env).1
  | .backClick => if st.onWordcloudPage then st else returnToSelection st
  | .timerFire => if st.timerSet then returnToSelection st else st
  | .langClick lang ok => (setLanguage st lang ok).1

/-- DOMContentLoaded state of the main page: nothing selected, launch
button disabled by the initial updateLaunchButtonState, interaction
enabled, no wordcloud shown, no timer pending. -/
def initState : AppState :=
  { selectedItems := [], currentLanguage := "en", launchDisabled := true,
    interactionDisabled := false, isWordcloudVisible := false,
    timerSet := false, displayedImageLang := none, onWordcloudPage := false }

/-- The state after a sequence of inputs from page load. -/
def runCmds (cs : List Cmd) : AppState :=
  cs.foldl step initState

/-- The selection list after a sequence of grid toggles from the empty
set. -/
def selectSeq (ks : List String) : List SelectionEntry :=
  ks.foldl handleGridItemClick []

/-- A concrete reachable state with three selected items: grid clicks on
keys a, b and c from page load. -/
def stThree : AppState :=
  runCmds [Cmd.gridClick "a", Cmd.gridClick "b", Cmd.gridClick "c"]

/-- The state reached by a fully successful launch from stThree. -/
def stShown : AppState :=
  (handleLaunchButtonClick stThree ⟨true, true, true⟩).1

/-- The input sequence that selects keys a, b and c and launches with all
asynchronous operations succeeding, reaching the in-place result view. -/
def csShown : List Cmd :=
  [Cmd.gridClick "a", Cmd.gridClick "b", Cmd.gridClick "c",
   Cmd.launchClick ⟨true, true, true⟩]

/-- Well-formedness of the selection list: capacity 3, keys unique, slot
indices unique and below 3. -/
def WF (s : List SelectionEntry) : Prop :=
  s.length ≤ 3 ∧ (selectionKeys s).Nodup ∧ (usedIndices s).Nodup ∧
    ∀ e ∈ s, e.rocketIndex < 3

/-- Invariant over reachable page states: the selection list is
well-formed, the flow never leaves the main page, and a visible wordcloud
always has its auto-return timer pending. -/
def WFapp (st : AppState) : Prop :=
  WF st.selectedItems ∧ st.onWordcloudPage = false ∧
    (st.isWordcloudVisible = true → st.timerSet = true)

/-! ### Invariant lemmas -/

theorem WF_nil : WF [] := by
  simp [WF, selectionKeys, usedIndices]

theorem WF_eraseP (s : List SelectionEntry) (p : SelectionEntry → Bool)
    (h : WF s) : WF (s.eraseP p) := by
  obtain ⟨h1, h2, h3, h4⟩ := h
  have hsub := List.eraseP_sublist (p := p) s
  exact ⟨le_trans hsub.length_le h1,
    h2.sublist (hsub.map SelectionEntry.key),
    h3.sublist (hsub.map SelectionEntry.rocketIndex),
    fun e he => h4 e (hsub.subset he)⟩

theorem nextRocketIndex_cases (used : List Nat) :
    (nextRocketIndex used = 0 ∧ 0 ∉ used) ∨
    (nextRocketIndex used = 1 ∧ 0 ∈ used ∧ 1 ∉ used) ∨
    (nextRocketIndex used = 2 ∧ 0 ∈ used ∧ 1 ∈ used ∧ 2 ∉ used) ∨
    (nextRocketIndex used = 3 ∧ 0 ∈ used ∧ 1 ∈ used ∧ 2 ∈ used) := by
  by_cases h0 : 0 ∈ used <;> by_cases h1 : 1 ∈ used <;>
    by_cases h2 : 2 ∈ used <;> simp [nextRocketIndex, h0, h1, h2]

theorem nextRocketIndex_min (used : List Nat) :
    ∀ j < nextRocketIndex used, j ∈ used := by
  intro j hj
  rcases nextRocketIndex_cases used with ⟨he, _⟩ | ⟨he, h0, _⟩ |
    ⟨he, h0, h1, _⟩ | ⟨he, h0, h1, h2⟩ <;> rw [he] at hj
  · exact absurd hj (by omega)
  · have hj0 : j = 0 := by omega
    rw [hj0]; exact h0
  · have : j = 0 ∨ j = 1 := by omega
    rcases this with rfl | rfl
    · exact h0
    · exact h1
  · have : j = 0 ∨ j = 1 ∨ j = 2 := by omega
    rcases this with rfl | rfl | rfl
    · exact h0
    · exact h1
    · exact h2

theorem nextRocketIndex_not_mem (used : List Nat)
    (h : nextRocketIndex used < 3) : nextRocketIndex used ∉ used := by
  rcases nextRocketIndex_cases used with ⟨he, hm⟩ | ⟨he, _, hm⟩ |
    ⟨he, _, _, hm⟩ | ⟨he, _, _, _⟩
  · rw [he]; exact hm
  · rw [he]; exact hm
  · rw [he]; exact hm
  · rw [he] at h; omega

theorem nextRocketIndex_lt_three (used : List Nat)
    (hlen : used.length < 3) : nextRocketIndex used < 3 := by
  rcases nextRocketIndex_cases used with ⟨he, _⟩ | ⟨he, _, _⟩ |
    ⟨he, _, _, _⟩ | ⟨he, h0, h1, h2⟩
  · omega
  · omega
  · omega
  · exfalso
    have hsub : [0, 1, 2] ⊆ used := by
      intro x hx
      simp only [List.mem_cons, List.not_mem_nil, or_false] at hx
      rcases hx with rfl | rfl | rfl
      · exact h0
      · exact h1
      · exact h2
    have hle : ([0, 1, 2] : List Nat).length ≤ used.length :=
      (List.subperm_of_subset (by decide) hsub).length_le
    simp only [List.length_cons, List.length_nil] at hle
    omega

theorem nextRocketIndex_eq (used : List Nat) (m : Nat) (hm3 : m < 3)
    (hnm : m ∉ used) (hmin : ∀ j < m, j ∈ used) :
    nextRocketIndex used = m := by
  rcases nextRocketIndex_cases used with ⟨he, h⟩ | ⟨he, h0, h⟩ |
    ⟨he, h0, h1, h⟩ | ⟨he, h0, h1, h2⟩
  · rw [he]
    by_contra hne
    exact h (hmin 0 (by omega))
  · rw [he]
    by_contra hne
    have : m = 0 ∨ m = 2 := by omega
    rcases this with rfl | rfl
    · exact hnm h0
    · exact h (hmin 1 (by omega))
  · rw [he]
    by_contra hne
    have : m = 0 ∨ m = 1 := by omega
    rcases this with rfl | rfl
    · exact hnm h0
    · exact hnm h1
  · exfalso
    have : m = 0 ∨ m = 1 ∨ m = 2 := by omega
    rcases this with rfl | rfl | rfl
    · exact hnm h0
    · exact hnm h1
    · exact hnm h2

theorem any_key_eq_false_iff (s : List SelectionEntry) (k : String) :
    s.any (fun e => e.key == k) = false ↔ k ∉ selectionKeys s := by
  rw [List.any_eq_false]
  constructor
  · intro h hk
    rcases List.mem_map.mp hk with ⟨e, he, hek⟩
    exact h e he (by simp [hek])
  · intro h e he hbeq
    simp only [beq_iff_eq] at hbeq
    exact h (List.mem_map.mpr ⟨e, he, hbeq⟩)

theorem WF_append_fresh (s : List SelectionEntry) (k : String) (m : Nat)
    (h : WF s) (hlen : s.length < 3) (hk : k ∉ selectionKeys s)
    (hm3 : m < 3) (hm : m ∉ usedIndices s) : WF (s ++ [⟨k, m⟩]) := by
  obtain ⟨h1, h2, h3, h4⟩ := h
  have hk' : ∀ x ∈ s, ¬ x.key = k := fun x hx hxe =>
    hk (List.mem_map.mpr ⟨x, hx, hxe⟩)
  have hm' : ∀ x ∈ s, ¬ x.rocketIndex = m := fun x hx hxe =>
    hm (List.mem_map.mpr ⟨x, hx, hxe⟩)
  refine ⟨?_, ?_, ?_, ?_⟩
  · simp only [List.length_append, List.length_cons, List.length_nil]
    omega
  · simp only [selectionKeys, List.map_append, List.map_cons, List.map_nil]
    rw [List.nodup_append]
    exact ⟨h2, List.nodup_singleton k,
      by simpa [List.disjoint_singleton] using hk'⟩
  · simp only [usedIndices, List.map_append, List.map_cons, List.map_nil]
    rw [List.nodup_append]
    exact ⟨h3, List.nodup_singleton m,
      by simpa [List.disjoint_singleton] using hm'⟩
  · intro e he
    rcases List.mem_append.mp he with he | he
    · exact h4 e he
    · simp only [List.mem_singleton] at he
      rw [he]
      exact hm3

theorem WF_handleGridItemClick (s : List SelectionEntry) (k : String)
    (h : WF s) : WF (handleGridItemClick s k) := by
  unfold handleGridItemClick
  cases hany : s.any (fun e => e.key == k) with
  | true =>
      simp only [hany, if_true]
      exact WF_eraseP s _ h
  | false =>
      simp only [hany, Bool.false_eq_true, if_false]
      split
      · split
        · exact WF_append_fresh s k _ h (by assumption)
            ((any_key_eq_false_iff s k).mp hany) (by assumption)
            (nextRocketIndex_not_mem _ (by assumption))
        · exact h
      · exact h

theorem WF_handleRocketBlockClick (s : List SelectionEntry) (i : Nat)
    (h : WF s) : WF (handleRocketBlockClick s i) := by
  unfold handleRocketBlockClick
  split
  · exact WF_eraseP s _ h
  · exact h

theorem WF_selectSeq (ks : List String) : WF (selectSeq ks) := by
  have hgen : ∀ (ks : List String) (s : List SelectionEntry), WF s →
      WF (ks.foldl handleGridItemClick s) := by
    intro ks
    induction ks with
    | nil => intro s hs; exact hs
    | cons k ks ih =>
        intro s hs
        exact ih _ (WF_handleGridItemClick s k hs)
  exact hgen ks [] WF_nil

theorem WFapp_initState : WFapp initState :=
  ⟨WF_nil, rfl, fun h => h⟩

theorem WFapp_step (st : AppState) (c : Cmd) (h : WFapp st) :
    WFapp (step st c) := by
  obtain ⟨hw, hpage, htimer⟩ := h
  cases c with
  | gridClick k =>
      simp only [step]
      split
      · exact ⟨hw, hpage, htimer⟩
      · exact ⟨WF_handleGridItemClick _ k hw, hpage, htimer⟩
  | rocketClick i =>
      simp only [step]
      split
      · exact ⟨hw, hpage, htimer⟩
      · split
        · exact ⟨WF_handleRocketBlockClick _ i hw, hpage, htimer⟩
        · exact ⟨hw, hpage, htimer⟩
  | launchClick env =>
      obtain ⟨so, po, io⟩ := env
      simp only [step, launchClickListener]
      split
      · exact ⟨hw, hpage, htimer⟩
      · simp only [handleLaunchButtonClick]
        split
        · exact ⟨hw, hpage, htimer⟩
        · cases so <;> cases po <;> cases io <;>
            first
              | exact ⟨hw, hpage, htimer⟩
              | exact ⟨hw, hpage, fun _ => rfl⟩
  | backClick =>
      simp only [step]
      split
      · exact ⟨hw, hpage, htimer⟩
      · simp only [returnToSelection]
        split
        · exact ⟨WF_nil, hpage, fun h => h⟩
        · exact ⟨hw, hpage, htimer⟩
  | timerFire =>
      simp only [step]
      split
      · simp only [returnToSelection]
        split
        · exact ⟨WF_nil, hpage, fun h => h⟩
        · exact ⟨hw, hpage, htimer⟩
      · exact ⟨hw, hpage, htimer⟩
  | langClick lang ok =>
      simp only [step, setLanguage]
      split
      · split
        · exact ⟨hw, hpage, htimer⟩
        · exact ⟨hw, hpage, htimer⟩
      · exact ⟨hw, hpage, htimer⟩

theorem WFapp_runCmds (cs : List Cmd) : WFapp (runCmds cs) := by
  have hgen : ∀ (cs : List Cmd) (st : AppState), WFapp st →
      WFapp (cs.foldl step st) := by
    intro cs
    induction cs with
    | nil => intro st hst; exact hst
    | cons c cs ih =>
        intro st hst
        exact ih _ (WFapp_step st c hst)
  exact hgen cs initState WFapp_initState

/-! ### Claim theorems -/

/-- C1: for every sequence of toggleItem (grid-click) calls from the empty
selection, the selection size never exceeds 3; toggling a fresh key while
fewer than 3 items are selected appends an entry at the minimum unused
slot index in [0,3); toggling a fresh key when 3 items are already
selected leaves the selection unchanged. -/
theorem toggleItem_cap_and_min_slot (ks : List String) (k : String) :
    (selectSeq ks).length ≤ 3 ∧
    (k ∉ selectionKeys (selectSeq ks) →
      ((selectSeq ks).length < 3 →
        handleGridItemClick (selectSeq ks) k =
          selectSeq ks ++
            [⟨k, nextRocketIndex (usedIndices (selectSeq ks))⟩] ∧
        nextRocketIndex (usedIndices (selectSeq ks)) < 3 ∧
        nextRocketIndex (usedIndices (selectSeq ks)) ∉
          usedIndices (selectSeq ks) ∧
        (∀ j < nextRocketIndex (usedIndices (selectSeq ks)),
          j ∈ usedIndices (selectSeq ks))) ∧
      ((selectSeq ks).length = 3 →
        handleGridItemClick (selectSeq ks) k = selectSeq ks)) := by
  obtain ⟨h1, h2, h3, h4⟩ := WF_selectSeq ks
  refine ⟨h1, fun hk => ⟨fun hlen => ?_, fun hlen => ?_⟩⟩
  · have hany : (selectSeq ks).any (fun e => e.key == k) = false :=
      (any_key_eq_false_iff _ k).mpr hk
    have hlt : nextRocketIndex (usedIndices (selectSeq ks)) < 3 :=
      nextRocketIndex_lt_three _
        (by simpa [usedIndices, List.length_map] using hlen)
    refine ⟨?_, hlt, nextRocketIndex_not_mem _ hlt, nextRocketIndex_min _⟩
    unfold handleGridItemClick
    simp only [hany, Bool.false_eq_true, if_false, hlen, if_true, hlt]
  · have hany : (selectSeq ks).any (fun e => e.key == k) = false :=
      (any_key_eq_false_iff _ k).mpr hk
    unfold handleGridItemClick
    simp only [hany, Bool.false_eq_true, if_false]
    rw [if_neg (by omega)]

/-- Witness for C1: after toggling two distinct keys, a third fresh key is
appended at the minimum unused slot. -/
theorem toggleItem_cap_and_min_slot_witness :
    (selectSeq ["a", "b"]).length ≤ 3 ∧
    handleGridItemClick (selectSeq ["a", "b"]) "c" =
      selectSeq ["a", "b"] ++
        [⟨"c", nextRocketIndex (usedIndices (selectSeq ["a", "b"]))⟩] := by
  have h := toggleItem_cap_and_min_slot ["a", "b"] "c"
  exact ⟨h.1, ((h.2 (by decide)).1 (by decide)).1⟩

/-- C10: removing one entry, whether by grid toggle of a selected key or
by rocket click of an occupied slot, deletes exactly that entry; every
remaining entry keeps its key and slot index (no reshuffling or
compaction). -/
theorem remove_keeps_remaining_entries (s : List SelectionEntry)
    (k : String) (i : Nat) :
    (s.any (fun e => e.key == k) = true →
      ∃ e l₁ l₂, e.key = k ∧ s = l₁ ++ e :: l₂ ∧
        handleGridItemClick s k = l₁ ++ l₂) ∧
    (s.any (fun e => e.rocketIndex == i) = true →
      ∃ e l₁ l₂, e.rocketIndex = i ∧ s = l₁ ++ e :: l₂ ∧
        handleRocketBlockClick s i = l₁ ++ l₂) := by
  constructor
  · intro hany
    rcases List.any_eq_true.mp hany with ⟨e, he, hbe⟩
    rcases List.exists_of_eraseP (p := fun e => e.key == k) he hbe with
      ⟨a, l₁, l₂, _, hpa, hs, herase⟩
    refine ⟨a, l₁, l₂, by simpa using hpa, hs, ?_⟩
    unfold handleGridItemClick
    simp only [hany, if_true]
    exact herase
  · intro hany
    rcases List.any_eq_true.mp hany with ⟨e, he, hbe⟩
    rcases List.exists_of_eraseP (p := fun e => e.rocketIndex == i) he hbe with
      ⟨a, l₁, l₂, _, hpa, hs, herase⟩
    refine ⟨a, l₁, l₂, by simpa using hpa, hs, ?_⟩
    unfold handleRocketBlockClick
    simp only [hany, if_true]
    exact herase

/-- Witness for C10 at a concrete two-entry selection. -/
theorem remove_keeps_remaining_entries_witness :
    (∃ e l₁ l₂, SelectionEntry.key e = "a" ∧
       ([⟨"a", 0⟩, ⟨"b", 1⟩] : List SelectionEntry) = l₁ ++ e :: l₂ ∧
       handleGridItemClick [⟨"a", 0⟩, ⟨"b", 1⟩] "a" = l₁ ++ l₂) ∧
    (∃ e l₁ l₂, SelectionEntry.rocketIndex e = 1 ∧
       ([⟨"a", 0⟩, ⟨"b", 1⟩] : List SelectionEntry) = l₁ ++ e :: l₂ ∧
       handleRocketBlockClick [⟨"a", 0⟩, ⟨"b", 1⟩] 1 = l₁ ++ l₂) := by
  have h := remove_keeps_remaining_entries [⟨"a", 0⟩, ⟨"b", 1⟩] "a" 1
  exact ⟨h.1 (by decide), h.2 (by decide)⟩

/-- C8: toggling an already-selected key removes its entry, and the freed
slot index is the one assigned by the next toggle of a fresh key,
provided that slot is the minimum unused one. -/
theorem toggle_frees_slot_for_reuse (cs : List Cmd) (k kNew : String)
    (e : SelectionEntry) (he : e ∈ (runCmds cs).selectedItems)
    (hek : e.key = k)
    (hnew : kNew ∉ selectionKeys (runCmds cs).selectedItems)
    (hmin : ∀ j < e.rocketIndex,
      j ∈ usedIndices (handleGridItemClick (runCmds cs).selectedItems k)) :
    (k ∉ selectionKeys (handleGridItemClick (runCmds cs).selectedItems k)) ∧
    handleGridItemClick (handleGridItemClick (runCmds cs).selectedItems k)
        kNew =
      handleGridItemClick (runCmds cs).selectedItems k ++
        [⟨kNew, e.rocketIndex⟩] := by
  obtain ⟨⟨h1, h2, h3, h4⟩, _, _⟩ := WFapp_runCmds cs
  set s := (runCmds cs).selectedItems with hsdef
  have hbe : (fun x : SelectionEntry => x.key == k) e = true := by simp [hek]
  have hany : s.any (fun x => x.key == k) = true :=
    List.any_eq_true.mpr ⟨e, he, hbe⟩
  rcases List.exists_of_eraseP (p := fun x => x.key == k) he hbe with
    ⟨a, l₁, l₂, _, hpa, hs, herase⟩
  have hak : a.key = k := by simpa using hpa
  have hamem : a ∈ s := by rw [hs]; simp
  have hae : a = e := List.inj_on_of_nodup_map h2 hamem he (by rw [hak, hek])
  have hclick : handleGridItemClick s k = l₁ ++ l₂ := by
    unfold handleGridItemClick
    simp only [hany, if_true]
    exact herase
  have h2' : (selectionKeys s).Nodup := h2
  rw [hs] at h2'
  simp only [selectionKeys, List.map_append, List.map_cons] at h2'
  rw [List.nodup_middle] at h2'
  have hknot : k ∉ (l₁ ++ l₂).map SelectionEntry.key := by
    have hn := (List.nodup_cons.mp h2').1
    rw [← hak]
    simpa [List.map_append] using hn
  have h3' : (usedIndices s).Nodup := h3
  rw [hs] at h3'
  simp only [usedIndices, List.map_append, List.map_cons] at h3'
  rw [List.nodup_middle] at h3'
  have hinot : e.rocketIndex ∉ (l₁ ++ l₂).map SelectionEntry.rocketIndex := by
    have hn := (List.nodup_cons.mp h3').1
    rw [← hae]
    simpa [List.map_append] using hn
  constructor
  · rw [hclick]
    simpa [selectionKeys] using hknot
  · have hnew1 : kNew ∉ selectionKeys (l₁ ++ l₂) := by
      intro hmem
      apply hnew
      rw [hs]
      simp only [selectionKeys, List.map_append, List.map_cons] at hmem ⊢
      rcases List.mem_append.mp hmem with hmm | hmm
      · exact List.mem_append.mpr (Or.inl hmm)
      · exact List.mem_append.mpr (Or.inr (List.mem_cons.mpr (Or.inr hmm)))
    have hany2 : (l₁ ++ l₂).any (fun x => x.key == kNew) = false :=
      (any_key_eq_false_iff _ kNew).mpr hnew1
    have hslen : s.length = l₁.length + 1 + l₂.length := by
      rw [hs]
      simp only [List.length_append, List.length_cons]
      omega
    have hlen2 : (l₁ ++ l₂).length < 3 := by
      simp only [List.length_append]
      omega
    have heq : nextRocketIndex (usedIndices (l₁ ++ l₂)) = e.rocketIndex := by
      apply nextRocketIndex_eq
      · exact h4 e he
      · simpa [usedIndices] using hinot
      · intro j hj
        have hjm := hmin j hj
        rwa [hclick] at hjm
    rw [hclick]
    unfold handleGridItemClick
    simp only [hany2, Bool.false_eq_true, if_false, hlen2, if_true, heq]
    rw [if_pos (h4 e he)]

/-- Witness for C8: removing key a frees slot 0, which the next fresh
toggle receives. -/
theorem toggle_frees_slot_for_reuse_witness :
    ("a" ∉ selectionKeys (handleGridItemClick
        (runCmds [Cmd.gridClick "a", Cmd.gridClick "b"]).selectedItems
        "a")) ∧
    handleGridItemClick (handleGridItemClick
        (runCmds [Cmd.gridClick "a", Cmd.gridClick "b"]).selectedItems "a")
        "c" =
      handleGridItemClick
          (runCmds [Cmd.gridClick "a", Cmd.gridClick "b"]).selectedItems
          "a" ++
        [⟨"c", 0⟩] := by
  exact toggle_frees_slot_for_reuse [Cmd.gridClick "a", Cmd.gridClick "b"]
    "a" "c" ⟨"a", 0⟩ (by decide) rfl (by decide)
    (fun j hj => absurd hj (Nat.not_lt_zero j))

/-- C2: the result view is shown only after both the animation-complete
signal and the successful resolution of the precompute request have
occurred: whenever showResult appears in the launch trace, the
precompute outcome was success and showResult is the last event, with
both signals strictly before it and no earlier showResult. -/
theorem resultShown_after_animation_and_precompute (st : AppState)
    (env : LaunchEnv)
    (h : Event.showResult ∈ (handleLaunchButtonClick st env).2) :
    env.precomputeOk = true ∧
    ∃ pre, (handleLaunchButtonClick st env).2 = pre ++ [Event.showResult] ∧
      Event.animationComplete ∈ pre ∧ Event.precomputeResolved ∈ pre ∧
      Event.showResult ∉ pre := by
  obtain ⟨so, po, io⟩ := env
  by_cases h3 : st.selectedItems.length = 3
  · cases so with
    | false => simp [handleLaunchButtonClick, h3] at h
    | true =>
        cases po with
        | false => simp [handleLaunchButtonClick, h3] at h
        | true =>
            cases io with
            | false =>
                simp [handleLaunchButtonClick, showWordcloudView, h3] at h
            | true =>
                refine ⟨rfl, [Event.firePrecompute
                    (selectionKeys st.selectedItems) st.currentLanguage,
                  Event.animationComplete,
                  Event.fireVote (selectionKeys st.selectedItems),
                  Event.voteResolved, Event.precomputeResolved,
                  Event.commitFired, Event.loadImage st.currentLanguage],
                  ?_, ?_, ?_, ?_⟩
                · simp [handleLaunchButtonClick, showWordcloudView, h3,
                    transitioningState]
                · simp
                · simp
                · simp
  · simp [handleLaunchButtonClick, h3] at h

/-- Witness for C2: the successful launch from stThree shows the result,
and both signals precede it. -/
theorem resultShown_after_animation_and_precompute_witness :
    Event.showResult ∈ (handleLaunchButtonClick stThree ⟨true, true, true⟩).2 ∧
    ((⟨true, true, true⟩ : LaunchEnv).precomputeOk = true ∧
      ∃ pre, (handleLaunchButtonClick stThree ⟨true, true, true⟩).2 =
          pre ++ [Event.showResult] ∧
        Event.animationComplete ∈ pre ∧ Event.precomputeResolved ∈ pre ∧
        Event.showResult ∉ pre) :=
  ⟨by decide,
   resultShown_after_animation_and_precompute stThree ⟨true, true, true⟩
     (by decide)⟩

/-- C3: if the vote request or the precompute request rejects during the
transition, the controller stays in (returns to) the selection view with
the same selection, interaction and the submit button re-enabled, an
alert surfaced, and no result shown. -/
theorem launch_failure_restores_selecting (st : AppState) (env : LaunchEnv)
    (h3 : st.selectedItems.length = 3)
    (hrej : env.submitOk = false ∨ env.precomputeOk = false) :
    (handleLaunchButtonClick st env).1.selectedItems = st.selectedItems ∧
    (handleLaunchButtonClick st env).1.isWordcloudVisible =
      st.isWordcloudVisible ∧
    (handleLaunchButtonClick st env).1.timerSet = st.timerSet ∧
    (handleLaunchButtonClick st env).1.launchDisabled = false ∧
    (handleLaunchButtonClick st env).1.interactionDisabled = false ∧
    Event.errorAlert ∈ (handleLaunchButtonClick st env).2 ∧
    Event.showResult ∉ (handleLaunchButtonClick st env).2 := by
  obtain ⟨so, po, io⟩ := env
  cases so with
  | true =>
      cases po with
      | true => rcases hrej with hrej | hrej <;> simp at hrej
      | false =>
          refine ⟨?_, ?_, ?_, ?_, ?_, ?_, ?_⟩ <;>
            simp [handleLaunchButtonClick, h3, errorRecoveryState,
              transitioningState]
  | false =>
      cases po <;>
        (refine ⟨?_, ?_, ?_, ?_, ?_, ?_, ?_⟩ <;>
          simp [handleLaunchButtonClick, h3, errorRecoveryState,
            transitioningState])

/-- Witness for C3: a rejected vote request from stThree leaves the three
selections in place and re-enables submit and interaction. -/
theorem launch_failure_restores_selecting_witness :
    (handleLaunchButtonClick stThree ⟨false, true, true⟩).1.selectedItems =
      stThree.selectedItems ∧
    (handleLaunchButtonClick stThree
        ⟨false, true, true⟩).1.isWordcloudVisible =
      stThree.isWordcloudVisible ∧
    (handleLaunchButtonClick stThree ⟨false, true, true⟩).1.timerSet =
      stThree.timerSet ∧
    (handleLaunchButtonClick stThree ⟨false, true, true⟩).1.launchDisabled =
      false ∧
    (handleLaunchButtonClick stThree
        ⟨false, true, true⟩).1.interactionDisabled = false ∧
    Event.errorAlert ∈ (handleLaunchButtonClick stThree
      ⟨false, true, true⟩).2 ∧
    Event.showResult ∉ (handleLaunchButtonClick stThree
      ⟨false, true, true⟩).2 :=
  launch_failure_restores_selecting stThree ⟨false, true, true⟩ (by decide)
    (Or.inl rfl)

/-- C4 counterexample: in the concrete successful launch from stThree it
is false that both the precompute request and the vote request are fired
before the animation-complete signal: the vote request is issued only
after the animation completes. -/
theorem vote_not_fired_before_animation_cex :
    ¬ (((handleLaunchButtonClick stThree ⟨true, true, true⟩).2.findIdx
          (fun e => e == Event.fireVote ["a", "b", "c"]) <
        (handleLaunchButtonClick stThree ⟨true, true, true⟩).2.findIdx
          (fun e => e == Event.animationComplete)) ∧
       ((handleLaunchButtonClick stThree ⟨true, true, true⟩).2.findIdx
          (fun e => e == Event.firePrecompute ["a", "b", "c"] "en") <
        (handleLaunchButtonClick stThree ⟨true, true, true⟩).2.findIdx
          (fun e => e == Event.animationComplete))) := by
  decide

/-- C4 amended: on submit with 3 selections the precompute request, with
the selected keys and the current language, is fired before the animation
is awaited, while the vote request, with the selected keys, is fired only
after the animation-complete signal; this holds for every outcome
environment. -/
theorem launch_request_order (st : AppState) (env : LaunchEnv)
    (h3 : st.selectedItems.length = 3) :
    ∃ rest, (handleLaunchButtonClick st env).2 =
      Event.firePrecompute (selectionKeys st.selectedItems)
          st.currentLanguage ::
        Event.animationComplete ::
          Event.fireVote (selectionKeys st.selectedItems) :: rest := by
  obtain ⟨so, po, io⟩ := env
  cases so with
  | false =>
      exact ⟨[Event.voteRejected, Event.errorAlert],
        by simp [handleLaunchButtonClick, h3]⟩
  | true =>
      cases po with
      | false =>
          exact ⟨[Event.voteResolved, Event.precomputeRejected,
            Event.errorAlert], by simp [handleLaunchButtonClick, h3]⟩
      | true =>
          cases io with
          | false =>
              exact ⟨[Event.voteResolved, Event.precomputeResolved,
                Event.commitFired, Event.loadImage st.currentLanguage,
                Event.imageLoadFailed, Event.errorAlert],
                by simp [handleLaunchButtonClick, showWordcloudView, h3,
                  transitioningState]⟩
          | true =>
              exact ⟨[Event.voteResolved, Event.precomputeResolved,
                Event.commitFired, Event.loadImage st.currentLanguage,
                Event.showResult],
                by simp [handleLaunchButtonClick, showWordcloudView, h3,
                  transitioningState]⟩

/-- Witness for the amended C4 at the concrete state stThree. -/
theorem launch_request_order_witness :
    ∃ rest, (handleLaunchButtonClick stThree ⟨true, true, true⟩).2 =
      Event.firePrecompute (selectionKeys stThree.selectedItems)
          stThree.currentLanguage ::
        Event.animationComplete ::
          Event.fireVote (selectionKeys stThree.selectedItems) :: rest :=
  launch_request_order stThree ⟨true, true, true⟩ (by decide)

/-- C7: at every suspension point of a launch in progress a second click
of the launch button is ignored: the guard on the disabled button leaves
the state unchanged and produces no event, in particular no duplicate
vote or precompute request. -/
theorem relaunch_during_transition_noop (st m : AppState)
    (env env2 : LaunchEnv) (hm : m ∈ launchSuspensionStates st env) :
    launchClickListener m env2 = (m, []) := by
  have hmt : m = transitioningState st := by
    unfold launchSuspensionStates at hm
    split at hm
    · simp at hm
    · split at hm
      · exact (List.mem_replicate.mp hm).2
      · split at hm
        · exact (List.mem_replicate.mp hm).2
        · exact (List.mem_replicate.mp hm).2
  rw [hmt]
  simp [launchClickListener, transitioningState]

/-- Witness for C7: a second click while the launch from stThree is
suspended is a no-op with an empty trace. -/
theorem relaunch_during_transition_noop_witness :
    launchClickListener (transitioningState stThree) ⟨true, true, true⟩ =
      (transitioningState stThree, []) :=
  relaunch_during_transition_noop stThree (transitioningState stThree)
    ⟨true, true, true⟩ ⟨true, true, true⟩ (by decide)

theorem dedup_keys_length (s : List SelectionEntry) (h : WF s) :
    (selectionKeys s).dedup.length = s.length := by
  obtain ⟨_, h2, _, _⟩ := h
  rw [List.dedup_eq_self.mpr h2]
  simp [selectionKeys]

/-- C5 counterexample: in the reachable state after a successful launch
the three keys are still selected (isFull holds) but the submit button is
disabled, so enabled-iff-isFull fails at a reachable state. -/
theorem submit_enabled_iff_full_cex :
    ¬ ((runCmds csShown).launchDisabled = false ↔
        (selectionKeys (runCmds csShown).selectedItems).dedup.length = 3) := by
  decide

/-- C5 amended: after any grid click processed in the interactive
selection view, and after any rocket click on an occupied slot there, the
submit button is enabled exactly when three distinct keys are selected;
outside those moments (during the transition and in the result view) the
button can be disabled with the three entries still selected. -/
theorem submit_enabled_iff_full_after_toggle (cs : List Cmd) (k : String)
    (i : Nat) (hen : (runCmds cs).interactionDisabled = false) :
    ((step (runCmds cs) (Cmd.gridClick k)).launchDisabled = false ↔
      (selectionKeys
        (step (runCmds cs) (Cmd.gridClick k)).selectedItems).dedup.length =
        3) ∧
    ((runCmds cs).selectedItems.any (fun e => e.rocketIndex == i) = true →
      ((step (runCmds cs) (Cmd.rocketClick i)).launchDisabled = false ↔
        (selectionKeys
          (step (runCmds cs)
            (Cmd.rocketClick i)).selectedItems).dedup.length = 3)) := by
  obtain ⟨hwf, _, _⟩ := WFapp_runCmds cs
  constructor
  · have hwf' := WF_handleGridItemClick (runCmds cs).selectedItems k hwf
    simp only [step, hen, Bool.false_eq_true, if_false,
      updateLaunchButtonState]
    rw [dedup_keys_length _ hwf']
    simp
  · intro hany
    have hwf' := WF_handleRocketBlockClick (runCmds cs).selectedItems i hwf
    simp only [step, hen, Bool.false_eq_true, if_false, hany, if_true,
      updateLaunchButtonState]
    rw [dedup_keys_length _ hwf']
    simp

/-- Witness for the amended C5: a third grid click enables the button, a
rocket click on an occupied slot disables it again. -/
theorem submit_enabled_iff_full_after_toggle_witness :
    ((step (runCmds [Cmd.gridClick "a", Cmd.gridClick "b"])
        (Cmd.gridClick "c")).launchDisabled = false ↔
      (selectionKeys (step (runCmds [Cmd.gridClick "a", Cmd.gridClick "b"])
        (Cmd.gridClick "c")).selectedItems).dedup.length = 3) ∧
    ((step (runCmds [Cmd.gridClick "a", Cmd.gridClick "b"])
        (Cmd.rocketClick 1)).launchDisabled = false ↔
      (selectionKeys (step (runCmds [Cmd.gridClick "a", Cmd.gridClick "b"])
        (Cmd.rocketClick 1)).selectedItems).dedup.length = 3) := by
  have h := submit_enabled_iff_full_after_toggle
    [Cmd.gridClick "a", Cmd.gridClick "b"] "c" 1 (by decide)
  exact ⟨h.1, h.2 (by decide)⟩

/-- C6: from a reachable result-shown state the pending auto-return timer
fires returnToSelection, which empties the selection, re-enables
interaction, hides the result and clears the timer; a manual back click
performs the same transition to the same end state, and after it a late
timer fire does nothing. -/
theorem auto_return_and_manual_return (cs : List Cmd)
    (hv : (runCmds cs).isWordcloudVisible = true) :
    step (runCmds cs) Cmd.timerFire = returnToSelection (runCmds cs) ∧
    step (runCmds cs) Cmd.backClick = returnToSelection (runCmds cs) ∧
    (returnToSelection (runCmds cs)).selectedItems = [] ∧
    (returnToSelection (runCmds cs)).isWordcloudVisible = false ∧
    (returnToSelection (runCmds cs)).interactionDisabled = false ∧
    (returnToSelection (runCmds cs)).launchDisabled = false ∧
    (returnToSelection (runCmds cs)).timerSet = false ∧
    step (returnToSelection (runCmds cs)) Cmd.timerFire =
      returnToSelection (runCmds cs) := by
  obtain ⟨_, hpage, htimer⟩ := WFapp_runCmds cs
  have ht := htimer hv
  refine ⟨?_, ?_, ?_, ?_, ?_, ?_, ?_, ?_⟩
  · simp [step, ht]
  · simp [step, hpage]
  · simp [returnToSelection, hv]
  · simp [returnToSelection, hv]
  · simp [returnToSelection, hv]
  · simp [returnToSelection, hv]
  · simp [returnToSelection, hv]
  · simp [step, returnToSelection, hv]

/-- Witness for C6 at the concrete result view reached by csShown. -/
theorem auto_return_and_manual_return_witness :
    step (runCmds csShown) Cmd.timerFire =
      returnToSelection (runCmds csShown) ∧
    step (runCmds csShown) Cmd.backClick =
      returnToSelection (runCmds csShown) ∧
    (returnToSelection (runCmds csShown)).selectedItems = [] ∧
    (returnToSelection (runCmds csShown)).isWordcloudVisible = false ∧
    (returnToSelection (runCmds csShown)).interactionDisabled = false ∧
    (returnToSelection (runCmds csShown)).launchDisabled = false ∧
    (returnToSelection (runCmds csShown)).timerSet = false ∧
    step (returnToSelection (runCmds csShown)) Cmd.timerFire =
      returnToSelection (runCmds csShown) :=
  auto_return_and_manual_return csShown (by decide)

/-- C9 amended: setLanguage never alters the selection, the view flags or
the pending timer, and issues no vote or precompute request; it re-points
the displayed wordcloud image to the asset for the new language only on
the standalone wordcloud page, while on the main page, the in-place
result view included, the displayed image is left unchanged. -/
theorem setLanguage_frame (st : AppState) (lang : String) (ok : Bool) :
    (setLanguage st lang ok).1.selectedItems = st.selectedItems ∧
    (setLanguage st lang ok).1.isWordcloudVisible = st.isWordcloudVisible ∧
    (setLanguage st lang ok).1.timerSet = st.timerSet ∧
    (setLanguage st lang ok).1.launchDisabled = st.launchDisabled ∧
    (setLanguage st lang ok).1.interactionDisabled =
      st.interactionDisabled ∧
    (∀ keys l, Event.firePrecompute keys l ∉ (setLanguage st lang ok).2) ∧
    (∀ keys, Event.fireVote keys ∉ (setLanguage st lang ok).2) ∧
    (st.onWordcloudPage = true → ok = true →
      (setLanguage st lang ok).1.displayedImageLang = some lang) ∧
    (st.onWordcloudPage = false →
      (setLanguage st lang ok).1.displayedImageLang =
        st.displayedImageLang) := by
  cases ok <;> cases hpg : st.onWordcloudPage <;>
    refine ⟨?_, ?_, ?_, ?_, ?_, ?_, ?_, ?_, ?_⟩ <;>
    simp [setLanguage, hpg]

/-- Witness for the amended C9 at the concrete result view: the frame and
the unchanged displayed image on the main page. -/
theorem setLanguage_frame_witness :
    (setLanguage (runCmds csShown) "he" true).1.selectedItems =
      (runCmds csShown).selectedItems ∧
    (setLanguage (runCmds csShown) "he" true).1.displayedImageLang =
      (runCmds csShown).displayedImageLang := by
  have h := setLanguage_frame (runCmds csShown) "he" true
  exact ⟨h.1, h.2.2.2.2.2.2.2.2 (by decide)⟩

/-- C9 counterexample: in the reachable in-place result view a language
switch does not re-point the displayed wordcloud image to the asset for
the new language; it stays at the language it was loaded with. -/
theorem setLanguage_no_repoint_cex :
    (runCmds csShown).isWordcloudVisible = true ∧
    (setLanguage (runCmds csShown) "he" true).1.displayedImageLang ≠
      some "he" := by
  decide
